import Mathlib

/-!
Verification of the Hany real-estate listing backend.

The repository has two revisions of one server:
  * the file-based revision (`src/unnamed/part_000`): listings and users in
    flat JSON files, modelled in namespace `FileRev`;
  * the database revision (`src/server.js`): listings in a Postgres table
    (modelled as a list of rows plus the SERIAL sequence counter) and users
    in a flat JSON file, modelled in namespace `DbRev`.

Modelling conventions:
  * Listing ids are modelled as `Int`: these are the values the server itself
    generates (`nextId`, the SERIAL column), and for integers the source's
    `String(x.id) === String(id)` comparison coincides with integer equality
    and `Number(cur.id) || 0` is the identity.
  * A JSON-body field that the source guards with a `typeof`/`Array.isArray`
    check is modelled as an `Option` of the checked type, `none` standing for
    "absent or of the wrong type" (exactly the cases where the guard fails);
    for `lat`/`lng`, guarded by `!= null`, `none` stands for null/absent.
  * Timestamps (`Date.now()`, `new Date()`) are inputs to the handlers.
  * File/database I/O faults are not modelled (handlers are modelled on their
    non-throwing paths); the catch-branch response bodies, which are literal
    JSON objects in the source, are modelled by `serverErrorBody`.
-/

namespace Hany

/-- An atomic JSON value appearing as a field of a user payload object. -/
inductive JAtom where
  | jnum (n : Int)
  | jstr (s : String)
deriving DecidableEq, Repr

/-- A top-level field value of a response envelope: an atom, a boolean, or a
nested object/array payload (whose contents are tracked by the typed handler
results, not by the envelope rendering). -/
inductive JField where
  | jbool (b : Bool)
  | jnum (n : Int)
  | jstr (s : String)
  | jpayload
deriving DecidableEq, Repr

def JField.isBool : JField → Bool
  | .jbool _ => true
  | _ => false

def JField.isStr : JField → Bool
  | .jstr _ => true
  | _ => false

/-- Does a JSON object (as a key/value list) contain the key `k`? -/
def hasKey {α : Type} (k : String) (o : List (String × α)) : Bool :=
  o.any (fun p => p.1 == k)

/-- Look up the value of key `k` in a JSON object. -/
def lookupField {α : Type} (k : String) (o : List (String × α)) : Option α :=
  (o.find? (fun p => p.1 == k)).map (fun p => p.2)

/-- The response envelope has a boolean field `ok`. -/
def hasOkBool (o : List (String × JField)) : Bool :=
  o.any (fun p => p.1 == "ok" && p.2.isBool)

/-- The response envelope carries `ok: false`. -/
def isOkFalse (o : List (String × JField)) : Bool :=
  lookupField "ok" o == some (.jbool false)

/-- The response envelope has a string field `error`. -/
def hasErrorStr (o : List (String × JField)) : Bool :=
  o.any (fun p => p.1 == "error" && p.2.isStr)

/-- The envelope contract of the spec: an `ok` boolean is always present, and
an `error` string is present whenever `ok` is `false`. -/
def envelopeOk (o : List (String × JField)) : Bool :=
  hasOkBool o && (!isOkFalse o || hasErrorStr o)

/-- The literal catch-branch body `res.status(500).json({ ok: false, error: msg })`
shared by the try/catch handlers of both revisions. -/
def serverErrorBody (msg : String) : List (String × JField) :=
  [("ok", .jbool false), ("error", .jstr msg)]

/-- A JavaScript whitespace character (the ASCII part of the characters that
`String.prototype.trim` removes). -/
def isJsWs (c : Char) : Bool :=
  c == ' ' || c == '\t' || c == '\n' || c == '\r' || c == '\x0b' || c == '\x0c'

/-- `String.prototype.trim`: drop leading and trailing whitespace. -/
def jsTrim (s : String) : String :=
  String.mk (((s.toList.dropWhile isJsWs).reverse.dropWhile isJsWs).reverse)

end Hany

namespace FileRev

open Hany

/-- A listing record of the file-based revision, as built by
`POST /api/listings` and `POST /api/listings/sync` in `src/unnamed/part_000`.
The create handler writes no `imgs` key; that absent key is modelled as `[]`
(nothing in the server reads `imgs`). -/
structure Listing where
  id : Int
  title : String
  price : String
  location : String
  desc : String
  tags : List String
  images : List String
  imgs : List String
  mapUrl : String
  lat : Option Int
  lng : Option Int
  completed : Bool
deriving DecidableEq, Repr

/-- The request body of `POST /api/listings` (file revision). Each `Option`
is `none` exactly when the source's type guard for that field fails. -/
structure ListingBody where
  id : Option Int
  title : Option String
  price : Option String
  location : Option String
  desc : Option String
  mapUrl : Option String
  lat : Option Int
  lng : Option Int
  tags : Option (List String)
  images : Option (List String)
deriving DecidableEq, Repr

/-- An all-absent request body. -/
def ListingBody.empty : ListingBody :=
  ⟨none, none, none, none, none, none, none, none, none, none⟩

/-- `data.reduce((acc, cur) => { const n = Number(cur.id) || 0; return n > acc ? n : acc; }, 0)`
from the create handler: the maximum of `0` and the numeric ids. -/
def maxNumericId (data : List Listing) : Int :=
  data.foldl (fun acc cur => if cur.id > acc then cur.id else acc) 0

/-- `let nextId = 1; if (data.length > 0) nextId = maxId + 1;` -/
def nextId (data : List Listing) : Int :=
  if data.length > 0 then maxNumericId data + 1 else 1

/-- Modelled from the spec: "the maximum existing numeric id in the store",
read literally as the maximum of the stored ids (for comparison with the
source's `maxNumericId`, which clamps at 0). Defined on nonempty stores via
a head-seeded fold. -/
def specMaxId (data : List Listing) : Int :=
  match data with
  | [] => 0
  | x :: xs => xs.foldl (fun acc cur => if cur.id > acc then cur.id else acc) x.id

/-- JavaScript truthiness of `body.id` for an integer-or-absent id:
`if (body.id)` is false for an absent id and for `0`. -/
def idTruthy : Option Int → Bool
  | none => false
  | some n => n != 0

/-- `data.find((x) => String(x.id) === String(body.id))`, on integer ids. -/
def findById (data : List Listing) (i : Int) : Option Listing :=
  data.find? (fun x => x.id == i)

/-- The fresh record pushed by the create path of `POST /api/listings`. -/
def newListing (nid : Int) : Listing :=
  { id := nid, title := "", price := "", location := "", desc := "",
    tags := [], images := [], imgs := [], mapUrl := "", lat := none,
    lng := none, completed := false }

/-- The conditional field assignments of `POST /api/listings`: each field
is overwritten only when its type guard holds (`typeof … === "string"`,
`Array.isArray`, `!= null`); `id` and `completed` are never assigned. -/
def applyBody (body : ListingBody) (t : Listing) : Listing :=
  { t with
    title := body.title.getD t.title,
    price := body.price.getD t.price,
    location := body.location.getD t.location,
    desc := body.desc.getD t.desc,
    mapUrl := body.mapUrl.getD t.mapUrl,
    lat := match body.lat with | some v => some v | none => t.lat,
    lng := match body.lng with | some v => some v | none => t.lng,
    tags := body.tags.getD t.tags,
    images := body.images.getD t.images }

/-- Replace the first listing whose id is `i` (the source finds the object
by `find` and mutates it in place). -/
def updateFirst (data : List Listing) (i : Int) (t2 : Listing) : List Listing :=
  match data with
  | [] => []
  | x :: xs => if x.id == i then t2 :: xs else x :: updateFirst xs i t2

/-- `POST /api/listings` (file revision): upsert. If `body.id` is truthy and
matches a stored listing, that listing is updated in place; otherwise a fresh
record with id `nextId` is appended and then updated. Returns the listing of
the `{ ok: true, listing }` response and the saved store. -/
def postListing (body : ListingBody) (data : List Listing) : Listing × List Listing :=
  let nid := nextId data
  match (if idTruthy body.id then findById data (body.id.getD 0) else none) with
  | some t =>
      let t2 := applyBody body t
      (t2, updateFirst data t.id t2)
  | none =>
      let t2 := applyBody body (newListing nid)
      (t2, data ++ [t2])

/-- Result of `DELETE /api/listings/:id` (file revision). -/
inductive DeleteRes where
  | notFound (error : String)
  | ok
deriving DecidableEq, Repr

/-- `DELETE /api/listings/:id` (file revision): filters out the id; when the
length is unchanged it answers not-found and does not save. -/
def deleteListing (i : Int) (data : List Listing) : DeleteRes × List Listing :=
  let filtered := data.filter (fun x => x.id != i)
  if data.length = filtered.length then
    (.notFound "삭제할 매물을 찾을 수 없습니다.", data)
  else
    (.ok, filtered)

/-- Result of `PATCH /api/listings/:id/complete` (file revision). -/
inductive CompleteRes where
  | notFound (error : String)
  | ok (listing : Listing)
deriving DecidableEq, Repr

/-- `PATCH /api/listings/:id/complete`: sets `completed = !!completed` on the
found listing. The double-negated body flag is the `completed` argument. -/
def toggleComplete (i : Int) (completed : Bool) (data : List Listing) :
    CompleteRes × List Listing :=
  match findById data i with
  | none => (.notFound "해당 매물을 찾을 수 없습니다.", data)
  | some t =>
      let t2 := { t with completed := completed }
      (.ok t2, updateFirst data i t2)

/-- An element of `body.listings` in `POST /api/listings/sync` that passed the
`item && typeof item === "object"` test. `Option` fields are `none` when the
source's guard (`Array.isArray`, truthiness via `|| ""`) falls to the default. -/
structure SyncItem where
  id : Int
  title : Option String
  price : Option String
  location : Option String
  desc : Option String
  tags : Option (List String)
  imgs : Option (List String)
  images : Option (List String)
  mapUrl : Option String
  lat : Option Int
  lng : Option Int
  completed : Bool
deriving DecidableEq, Repr

/-- The normalisation applied to each kept item of `POST /api/listings/sync`:
`id` passes through verbatim, strings default to `""`, arrays to `[]`, with
the `imgs`/`images` cross-alias. -/
def cleanItem (it : SyncItem) : Listing :=
  { id := it.id,
    title := it.title.getD "",
    price := it.price.getD "",
    location := it.location.getD "",
    desc := it.desc.getD "",
    tags := it.tags.getD [],
    imgs := (match it.imgs with | some a => a | none => it.images.getD []),
    images := (match it.images with | some a => a | none => it.imgs.getD []),
    mapUrl := it.mapUrl.getD "",
    lat := it.lat,
    lng := it.lng,
    completed := it.completed }

/-- `POST /api/listings/sync`: maps non-objects to `null`, filters them out,
normalises the rest and overwrites the whole store. Returns the new store and
the `count` of the `{ ok: true, count }` response. `none` entries stand for
the non-object elements of `body.listings`. -/
def syncListings (incoming : List (Option SyncItem)) : List Listing × Nat :=
  let clean := (incoming.filterMap id).map cleanItem
  (clean, clean.length)

/-- A user record of the file-based revision, as pushed by `POST /api/signup`:
`{ id: Date.now(), nickname, phone, password, createdAt }`. -/
structure User where
  id : Int
  nickname : String
  phone : String
  password : String
  createdAt : String
deriving DecidableEq, Repr

/-- The body of `POST /api/signup` / `POST /api/login` (file revision). Each
field is read as `(body.f || "").trim()`; `none` models an absent or falsy
field (which `|| ""` turns into the empty string). -/
structure SignupBody where
  nickname : Option String
  phone : Option String
  password : Option String
deriving DecidableEq, Repr

/-- Result of `POST /api/signup` (file revision). The success payload is the
full stored user record — the source answers `res.json({ ok: true, user })`
with the record it just pushed, password included. -/
inductive SignupRes where
  | fail (error : String)
  | ok (user : User)
deriving DecidableEq, Repr

def SignupRes.isOk : SignupRes → Bool
  | .ok _ => true
  | .fail _ => false

/-- `POST /api/signup` (file revision): requires nonempty trimmed nickname,
phone and password; rejects when a stored user shares the nickname or the
phone; otherwise pushes `{ id: now, nickname, phone, password, createdAt }`.
There is no check against the nickname `"admin"`. -/
def signup (body : SignupBody) (now : Int) (nowIso : String) (users : List User) :
    SignupRes × List User :=
  let nickname := jsTrim (body.nickname.getD "")
  let phone := jsTrim (body.phone.getD "")
  let password := jsTrim (body.password.getD "")
  if nickname == "" || phone == "" || password == "" then
    (.fail "닉네임, 전화번호, 비밀번호를 모두 입력해주세요.", users)
  else
    match users.find? (fun u => u.nickname == nickname || u.phone == phone) with
    | some _ => (.fail "이미 등록된 닉네임 또는 전화번호입니다.", users)
    | none =>
        let user : User :=
          { id := now, nickname := nickname, phone := phone,
            password := password, createdAt := nowIso }
        (.ok user, users ++ [user])

/-- The sanitized `{ id, nickname, phone }` payload of a successful
`POST /api/login` (file revision). -/
structure LoginUser where
  id : Int
  nickname : String
  phone : String
deriving DecidableEq, Repr

/-- Result of `POST /api/login` (file revision). -/
inductive LoginRes where
  | fail (error : String)
  | ok (user : LoginUser)
deriving DecidableEq, Repr

/-- `POST /api/login` (file revision): exact cleartext password match on the
trimmed credentials; the success payload carries only id, nickname, phone. -/
def login (body : SignupBody) (users : List User) : LoginRes :=
  let nickname := jsTrim (body.nickname.getD "")
  let password := jsTrim (body.password.getD "")
  if nickname == "" || password == "" then
    .fail "닉네임과 비밀번호를 모두 입력해주세요."
  else
    match users.find? (fun u => u.nickname == nickname && u.password == password) with
    | none => .fail "회원 정보가 일치하지 않습니다."
    | some found => .ok { id := found.id, nickname := found.nickname, phone := found.phone }

/-- The `{ id, nickname, phone, createdAt }` item of `GET /api/users`
(file revision). -/
structure UsersItem where
  id : Int
  nickname : String
  phone : String
  createdAt : String
deriving DecidableEq, Repr

/-- `GET /api/users` (file revision): maps each stored user to its
password-free projection. -/
def usersList (users : List User) : List UsersItem :=
  users.map (fun u =>
    { id := u.id, nickname := u.nickname, phone := u.phone, createdAt := u.createdAt })

/-- The JSON keys/values of a full stored user record, as serialised inside
the signup success response of the file revision. -/
def userJson (u : User) : List (String × JAtom) :=
  [("id", .jnum u.id), ("nickname", .jstr u.nickname), ("phone", .jstr u.phone),
   ("password", .jstr u.password), ("createdAt", .jstr u.createdAt)]

/-- The JSON keys/values of a login success payload (file revision). -/
def loginUserJson (u : LoginUser) : List (String × JAtom) :=
  [("id", .jnum u.id), ("nickname", .jstr u.nickname), ("phone", .jstr u.phone)]

/-- The JSON keys/values of a `GET /api/users` item (file revision). -/
def usersItemJson (u : UsersItem) : List (String × JAtom) :=
  [("id", .jnum u.id), ("nickname", .jstr u.nickname), ("phone", .jstr u.phone),
   ("createdAt", .jstr u.createdAt)]

/-- Envelope of `GET /api/listings` (file revision): always
`{ ok: true, listings }`. -/
def renderListings : List (String × JField) :=
  [("ok", .jbool true), ("listings", .jpayload)]

/-- Result of `GET /api/listings/:id` (file revision). -/
inductive GetOneRes where
  | notFound (error : String)
  | found (listing : Listing)
deriving DecidableEq, Repr

/-- `GET /api/listings/:id` (file revision). -/
def getListing (i : Int) (data : List Listing) : GetOneRes :=
  match findById data i with
  | none => .notFound "해당 매물을 찾을 수 없습니다."
  | some l => .found l

/-- Envelope of `GET /api/listings/:id` (file revision). -/
def renderGetOne : GetOneRes → List (String × JField)
  | .notFound e => [("ok", .jbool false), ("error", .jstr e)]
  | .found _ => [("ok", .jbool true), ("listing", .jpayload)]

/-- Envelope of a (non-throwing) `POST /api/listings` (file revision):
always `{ ok: true, listing }`. -/
def renderPost : List (String × JField) :=
  [("ok", .jbool true), ("listing", .jpayload)]

/-- Envelope of `DELETE /api/listings/:id` (file revision). -/
def renderDelete : DeleteRes → List (String × JField)
  | .notFound e => [("ok", .jbool false), ("error", .jstr e)]
  | .ok => [("ok", .jbool true)]

/-- Envelope of `PATCH /api/listings/:id/complete` (file revision). -/
def renderComplete : CompleteRes → List (String × JField)
  | .notFound e => [("ok", .jbool false), ("error", .jstr e)]
  | .ok _ => [("ok", .jbool true), ("listing", .jpayload)]

/-- Envelope of `POST /api/listings/sync` (file revision):
`{ ok: true, count }`. -/
def renderSync (count : Nat) : List (String × JField) :=
  [("ok", .jbool true), ("count", .jnum count)]

/-- Envelope of `POST /api/signup` (file revision). -/
def renderSignup : SignupRes → List (String × JField)
  | .fail e => [("ok", .jbool false), ("error", .jstr e)]
  | .ok _ => [("ok", .jbool true), ("user", .jpayload)]

/-- Envelope of `POST /api/login` (file revision). -/
def renderLogin : LoginRes → List (String × JField)
  | .fail e => [("ok", .jbool false), ("error", .jstr e)]
  | .ok _ => [("ok", .jbool true), ("user", .jpayload)]

/-- Envelope of `GET /api/users` (file revision): `{ ok: true, users }`. -/
def renderUsers : List (String × JField) :=
  [("ok", .jbool true), ("users", .jpayload)]

end FileRev

namespace DbRev

open Hany

/-- A user record of the database revision (`users.db.json`):
`{ id, nickname, phone, pw, role }`. -/
structure User where
  id : String
  nickname : String
  phone : String
  pw : String
  role : String
deriving DecidableEq, Repr

/-- The seeded administrator record of `ensureAdminUser`. -/
def adminUser : User :=
  { id := "admin", nickname := "admin", phone := "", pw := "admin123", role := "admin" }

/-- `ensureAdminUser`: appends the default admin record when no stored user
has id `"admin"`. -/
def ensureAdminUser (users : List User) : List User :=
  if users.any (fun u => u.id == "admin") then users else users ++ [adminUser]

/-- The body of `POST /api/signup` / `POST /api/login` (database revision).
`none` models an absent or falsy field (the `!nickname` test); a present
non-string is modelled by its `String(...)` image. -/
structure SignupBody where
  nickname : Option String
  phone : Option String
  password : Option String
deriving DecidableEq, Repr

/-- The sanitized `{ id, nickname, phone, role }` user payload of the
database revision (signup and login successes, `GET /api/users` items). -/
structure SafeUser where
  id : String
  nickname : String
  phone : String
  role : String
deriving DecidableEq, Repr

/-- The JSON keys/values of a sanitized user payload (database revision). -/
def safeUserJson (u : SafeUser) : List (String × JAtom) :=
  [("id", .jstr u.id), ("nickname", .jstr u.nickname), ("phone", .jstr u.phone),
   ("role", .jstr u.role)]

/-- Result of `POST /api/signup` (database revision). -/
inductive SignupRes where
  | fail (error : String)
  | ok (user : SafeUser)
deriving DecidableEq, Repr

def SignupRes.isOk : SignupRes → Bool
  | .ok _ => true
  | .fail _ => false

/-- `POST /api/signup` (database revision): requires truthy nickname and
password, a nonempty trimmed nickname, rejects the literal trimmed nickname
`"admin"` and any nickname already stored as an id or nickname; stores the
password untrimmed and in cleartext; answers with the sanitized user. -/
def signup (body : SignupBody) (users : List User) : SignupRes × List User :=
  let nRaw := body.nickname.getD ""
  let pRaw := body.password.getD ""
  if nRaw == "" || pRaw == "" then
    (.fail "닉네임과 비밀번호는 필수입니다.", users)
  else
    let trimmedNickname := jsTrim nRaw
    let trimmedPhone := jsTrim (body.phone.getD "")
    if trimmedNickname == "" then
      (.fail "닉네임을 올바르게 입력해주세요.", users)
    else if trimmedNickname == "admin" then
      (.fail "admin 닉네임은 사용할 수 없습니다.", users)
    else if users.any (fun u => u.id == trimmedNickname || u.nickname == trimmedNickname) then
      (.fail "이미 사용 중인 닉네임입니다.", users)
    else
      let newUser : User :=
        { id := trimmedNickname, nickname := trimmedNickname,
          phone := trimmedPhone, pw := pRaw, role := "user" }
      (.ok { id := newUser.id, nickname := newUser.nickname,
             phone := newUser.phone, role := newUser.role },
       users ++ [newUser])

/-- Result of `POST /api/login` (database revision). -/
inductive LoginRes where
  | fail (error : String)
  | ok (user : SafeUser)
deriving DecidableEq, Repr

/-- `POST /api/login` (database revision): matches by trimmed nickname against
stored id or nickname, with exact untrimmed cleartext password; answers with
the sanitized user. -/
def login (body : SignupBody) (users : List User) : LoginRes :=
  let nRaw := body.nickname.getD ""
  let pRaw := body.password.getD ""
  if nRaw == "" || pRaw == "" then
    .fail "닉네임과 비밀번호를 입력해주세요."
  else
    let trimmedNickname := jsTrim nRaw
    match users.find? (fun u =>
        (u.id == trimmedNickname || u.nickname == trimmedNickname) && u.pw == pRaw) with
    | none => .fail "닉네임 또는 비밀번호가 올바르지 않습니다."
    | some user =>
        .ok { id := user.id, nickname := user.nickname,
              phone := user.phone, role := user.role }

/-- `GET /api/users` (database revision): the sanitized projections of all
stored users. -/
def usersList (users : List User) : List SafeUser :=
  users.map (fun u =>
    { id := u.id, nickname := u.nickname, phone := u.phone, role := u.role })

/-- The singleton contact record (`contact.db.json`). -/
structure Contact where
  name : String
  phone : String
  kakao : String
  zalo : String
  telegram : String
deriving DecidableEq, Repr

/-- The body of `POST /api/contact-info`; `none` models an absent or
non-string field, which `saveContactInfo` turns into `""`. -/
structure ContactBody where
  name : Option String
  phone : Option String
  kakao : Option String
  zalo : Option String
  telegram : Option String
deriving DecidableEq, Repr

/-- `saveContactInfo`: trims every string field, defaults non-strings to
`""`, and overwrites the whole record. -/
def saveContactInfo (body : ContactBody) : Contact :=
  { name := (body.name.map jsTrim).getD "",
    phone := (body.phone.map jsTrim).getD "",
    kakao := (body.kakao.map jsTrim).getD "",
    zalo := (body.zalo.map jsTrim).getD "",
    telegram := (body.telegram.map jsTrim).getD "" }

/-- A row of the `listings` table, under the aliases of
`LISTING_SELECT_SQL`. Timestamps are abstract instants (`Int`). -/
structure Row where
  id : Int
  title : String
  price : String
  location : String
  mapUrl : String
  desc : String
  tags : List String
  images : List String
  contractDone : Bool
  createdAt : Int
  updatedAt : Int
deriving DecidableEq, Repr

/-- The `listings` table together with the `SERIAL` sequence counter: an
insert always draws `seq + 1` and advances the counter (sequence values are
never reused, matching Postgres `SERIAL` semantics). -/
structure DbState where
  rows : List Row
  seq : Int
deriving DecidableEq, Repr

/-- The body of `POST /api/listings` / `PUT /api/listings/:id` (database
revision). `none` on `title` models an absent or falsy title (the `!title`
test); on the other strings it models an absent/falsy field (which
`price ? String(price) : ""` turns into `""`); on the arrays it models a
non-array (`Array.isArray` guard). -/
structure RowBody where
  title : Option String
  price : Option String
  location : Option String
  mapUrl : Option String
  desc : Option String
  tags : Option (List String)
  images : Option (List String)
deriving DecidableEq, Repr

/-- JavaScript truthiness of the `title` field: absent/falsy (`none`) and
the empty string are falsy. -/
def titleTruthy : Option String → Bool
  | none => false
  | some s => s != ""

/-- Insertion into a list sorted by descending id (`ORDER BY id DESC`). -/
def insertDesc (x : Row) : List Row → List Row
  | [] => [x]
  | y :: ys => if x.id ≥ y.id then x :: y :: ys else y :: insertDesc x ys

/-- `LISTING_SELECT_SQL + " ORDER BY id DESC"`: the rows sorted by
descending id. -/
def sortByIdDesc (rows : List Row) : List Row :=
  rows.foldr insertDesc []

/-- Result of `POST /api/listings` (database revision). -/
inductive CreateRes where
  | fail (error : String)
  | ok (listing : Row) (listings : List Row)
deriving DecidableEq, Repr

def CreateRes.isOk : CreateRes → Bool
  | .ok _ _ => true
  | .fail _ => false

/-- `POST /api/listings` (database revision): rejects a falsy title without
touching the table; otherwise inserts a fresh row whose id is drawn from the
sequence, `contract_done = false`, both timestamps `now`, and answers with
the new row and the refreshed descending list. -/
def createListing (body : RowBody) (now : Int) (st : DbState) : CreateRes × DbState :=
  if !titleTruthy body.title then
    (.fail "제목은 필수입니다.", st)
  else
    let newItem : Row :=
      { id := st.seq + 1,
        title := body.title.getD "",
        price := body.price.getD "",
        location := body.location.getD "",
        mapUrl := body.mapUrl.getD "",
        desc := body.desc.getD "",
        tags := body.tags.getD [],
        images := body.images.getD [],
        contractDone := false,
        createdAt := now,
        updatedAt := now }
    let rows2 := st.rows ++ [newItem]
    (.ok newItem (sortByIdDesc rows2), { rows := rows2, seq := st.seq + 1 })

/-- The `SET` clause of `PUT /api/listings/:id`: every updatable column is
overwritten (absent strings with `""`, non-arrays with `[]`); `id`,
`contract_done` and `created_at` are not in the clause. -/
def putRow (body : RowBody) (now : Int) (r : Row) : Row :=
  { r with
    title := body.title.getD "",
    price := body.price.getD "",
    location := body.location.getD "",
    mapUrl := body.mapUrl.getD "",
    desc := body.desc.getD "",
    tags := body.tags.getD [],
    images := body.images.getD [],
    updatedAt := now }

/-- Result of `PUT /api/listings/:id` (database revision). -/
inductive UpdateRes where
  | fail (error : String)
  | notFound (error : String)
  | ok (listing : Row) (listings : List Row)
deriving DecidableEq, Repr

/-- `PUT /api/listings/:id` (database revision): rejects a falsy title;
otherwise runs `UPDATE … WHERE id = $9`, answering 404 when no row matched
and the updated row plus refreshed list otherwise. -/
def updateListing (i : Int) (body : RowBody) (now : Int) (st : DbState) :
    UpdateRes × DbState :=
  if !titleTruthy body.title then
    (.fail "제목은 필수입니다.", st)
  else
    match st.rows.find? (fun r => r.id == i) with
    | none => (.notFound "수정할 매물을 찾을 수 없습니다.", st)
    | some r =>
        let rows2 := st.rows.map (fun x => if x.id == i then putRow body now x else x)
        (.ok (putRow body now r) (sortByIdDesc rows2), { st with rows := rows2 })

/-- Result of `DELETE /api/listings/:id` (database revision). -/
inductive DeleteRes where
  | notFound (error : String)
  | ok (listings : List Row)
deriving DecidableEq, Repr

/-- `DELETE /api/listings/:id` (database revision): `DELETE … WHERE id = $1`;
404 when the row count is zero, otherwise the refreshed descending list. -/
def deleteListing (i : Int) (st : DbState) : DeleteRes × DbState :=
  let remaining := st.rows.filter (fun r => r.id != i)
  if st.rows.length = remaining.length then
    (.notFound "삭제할 매물을 찾을 수 없습니다.", st)
  else
    (.ok (sortByIdDesc remaining), { st with rows := remaining })

/-- Result of `POST /api/listings/:id/contract` (database revision). -/
inductive ContractRes where
  | notFound (error : String)
  | ok (listing : Row) (listings : List Row)
deriving DecidableEq, Repr

/-- `POST /api/listings/:id/contract` (database revision): sets
`contract_done = !!req.body.done` and `updated_at = NOW()` on the matching
row; 404 when absent. -/
def contractListing (i : Int) (done : Bool) (now : Int) (st : DbState) :
    ContractRes × DbState :=
  match st.rows.find? (fun r => r.id == i) with
  | none => (.notFound "계약 상태를 변경할 매물을 찾을 수 없습니다.", st)
  | some r =>
      let upd := fun (x : Row) => { x with contractDone := done, updatedAt := now }
      let rows2 := st.rows.map (fun x => if x.id == i then upd x else x)
      (.ok (upd r) (sortByIdDesc rows2), { st with rows := rows2 })

/-- The possible outcomes of `GET /api/resolve-map` (the redirect-following
fetch itself is external I/O; its outcome is this input). `resolved` carries
the final URL after the handler's percent-decoding step. -/
inductive ResolveOutcome where
  | missingParam
  | emptyFinal
  | resolved (fullUrl : String)
  | fetchError
deriving DecidableEq, Repr

/-- The response bodies of `GET /api/resolve-map`: none of the four carries
an `ok` field — `{ error }` for a missing parameter (400), an empty final
URL (200) and a transport error (500), and `{ fullUrl }` on success. -/
def renderResolve : ResolveOutcome → List (String × JField)
  | .missingParam => [("error", .jstr "url 파라미터가 필요합니다.")]
  | .emptyFinal => [("error", .jstr "최종 주소를 찾을 수 없습니다.")]
  | .resolved u => [("fullUrl", .jstr u)]
  | .fetchError => [("error", .jstr "주소 변환 중 오류가 발생했습니다.")]

/-- Envelope of `POST /api/signup` (database revision). -/
def renderSignup : SignupRes → List (String × JField)
  | .fail e => [("ok", .jbool false), ("error", .jstr e)]
  | .ok _ => [("ok", .jbool true), ("user", .jpayload)]

/-- Envelope of `POST /api/login` (database revision). -/
def renderLogin : LoginRes → List (String × JField)
  | .fail e => [("ok", .jbool false), ("error", .jstr e)]
  | .ok _ => [("ok", .jbool true), ("user", .jpayload)]

/-- Envelope of `GET /api/users` (database revision). -/
def renderUsers : List (String × JField) :=
  [("ok", .jbool true), ("users", .jpayload)]

/-- Envelope of `GET /api/contact-info` and `POST /api/contact-info`. -/
def renderContact : List (String × JField) :=
  [("ok", .jbool true), ("contact", .jpayload)]

/-- Envelope of `GET /api/listings` (database revision). -/
def renderListings : List (String × JField) :=
  [("ok", .jbool true), ("listings", .jpayload)]

/-- Result of `GET /api/listings/:id` (database revision). -/
inductive GetOneRes where
  | notFound (error : String)
  | found (listing : Row)
deriving DecidableEq, Repr

/-- `GET /api/listings/:id` (database revision). -/
def getListing (i : Int) (st : DbState) : GetOneRes :=
  match st.rows.find? (fun r => r.id == i) with
  | none => .notFound "해당 매물을 찾을 수 없습니다."
  | some r => .found r

/-- Envelope of `GET /api/listings/:id` (database revision). -/
def renderGetOne : GetOneRes → List (String × JField)
  | .notFound e => [("ok", .jbool false), ("error", .jstr e)]
  | .found _ => [("ok", .jbool true), ("listing", .jpayload)]

/-- Envelope of `POST /api/listings` (database revision). -/
def renderCreate : CreateRes → List (String × JField)
  | .fail e => [("ok", .jbool false), ("error", .jstr e)]
  | .ok _ _ => [("ok", .jbool true), ("listing", .jpayload), ("listings", .jpayload)]

/-- Envelope of `PUT /api/listings/:id` (database revision). -/
def renderUpdate : UpdateRes → List (String × JField)
  | .fail e => [("ok", .jbool false), ("error", .jstr e)]
  | .notFound e => [("ok", .jbool false), ("error", .jstr e)]
  | .ok _ _ => [("ok", .jbool true), ("listing", .jpayload), ("listings", .jpayload)]

/-- Envelope of `DELETE /api/listings/:id` (database revision). -/
def renderDelete : DeleteRes → List (String × JField)
  | .notFound e => [("ok", .jbool false), ("error", .jstr e)]
  | .ok _ => [("ok", .jbool true), ("listings", .jpayload)]

/-- Envelope of `POST /api/listings/:id/contract` (database revision). -/
def renderContract : ContractRes → List (String × JField)
  | .notFound e => [("ok", .jbool false), ("error", .jstr e)]
  | .ok _ _ => [("ok", .jbool true), ("listing", .jpayload), ("listings", .jpayload)]

end DbRev

/-- The ids of a file-revision store. -/
def FileRev.idsOf (data : List FileRev.Listing) : List Int :=
  data.map (fun l => l.id)

/-- The ids of a database-revision table. -/
def DbRev.idsOf (rows : List DbRev.Row) : List Int :=
  rows.map (fun r => r.id)

/-- The id of the created row of a `POST /api/listings` response (database
revision), when the insert succeeded. -/
def DbRev.CreateRes.listingId? : DbRev.CreateRes → Option Int
  | .ok l _ => some l.id
  | .fail _ => none

/-- C1 counterexample: on the file-based revision a successful
`POST /api/signup` answers with the full stored user record, whose JSON
object carries a `password` field holding the submitted cleartext password
(`src/unnamed/part_000`, `return res.json({ ok: true, user })`). -/
theorem c1_counterexample :
    (FileRev.signup ⟨some "alice", some "010", some "pw1"⟩ 5 "t" []).1 =
      FileRev.SignupRes.ok ⟨5, "alice", "010", "pw1", "t"⟩ ∧
    Hany.hasKey "password" (FileRev.userJson ⟨5, "alice", "010", "pw1", "t"⟩) = true ∧
    Hany.lookupField "password" (FileRev.userJson ⟨5, "alice", "010", "pw1", "t"⟩) =
      some (Hany.JAtom.jstr "pw1") := by decide

/-- C1 (amended): the sanitized user payloads — login successes and
`GET /api/users` items in the file revision, and signup/login successes and
`GET /api/users` items in the database revision — contain no `password` and
no `pw` field; only the file revision's signup success response exposes the
stored password. -/
theorem c1_amended :
    (∀ (body : FileRev.SignupBody) (users : List FileRev.User) (u : FileRev.LoginUser),
        FileRev.login body users = FileRev.LoginRes.ok u →
        Hany.hasKey "password" (FileRev.loginUserJson u) = false ∧
        Hany.hasKey "pw" (FileRev.loginUserJson u) = false) ∧
    (∀ (users : List FileRev.User) (u : FileRev.UsersItem),
        u ∈ FileRev.usersList users →
        Hany.hasKey "password" (FileRev.usersItemJson u) = false ∧
        Hany.hasKey "pw" (FileRev.usersItemJson u) = false) ∧
    (∀ (body : DbRev.SignupBody) (users : List DbRev.User) (u : DbRev.SafeUser),
        (DbRev.signup body users).1 = DbRev.SignupRes.ok u →
        Hany.hasKey "password" (DbRev.safeUserJson u) = false ∧
        Hany.hasKey "pw" (DbRev.safeUserJson u) = false) ∧
    (∀ (body : DbRev.SignupBody) (users : List DbRev.User) (u : DbRev.SafeUser),
        DbRev.login body users = DbRev.LoginRes.ok u →
        Hany.hasKey "password" (DbRev.safeUserJson u) = false ∧
        Hany.hasKey "pw" (DbRev.safeUserJson u) = false) ∧
    (∀ (users : List DbRev.User) (u : DbRev.SafeUser),
        u ∈ DbRev.usersList users →
        Hany.hasKey "password" (DbRev.safeUserJson u) = false ∧
        Hany.hasKey "pw" (DbRev.safeUserJson u) = false) := by
  refine ⟨?_, ?_, ?_, ?_, ?_⟩ <;> intros <;> exact ⟨rfl, rfl⟩

/-- C1 witness: the amended theorem applied to a concrete login. -/
theorem c1_witness :
    Hany.hasKey "password" (FileRev.loginUserJson ⟨5, "alice", "010"⟩) = false ∧
    Hany.hasKey "pw" (FileRev.loginUserJson ⟨5, "alice", "010"⟩) = false :=
  c1_amended.1 ⟨some "alice", none, some "pw1"⟩
    [⟨5, "alice", "010", "pw1", "t"⟩] ⟨5, "alice", "010"⟩ (by decide)

/-- C2 counterexample: the file-based revision has no reserved-nickname
check — `POST /api/signup` with nickname `"admin"` (nonempty phone and
password, empty store) succeeds and stores a user. -/
theorem c2_counterexample :
    (FileRev.signup ⟨some "admin", some "1", some "x"⟩ 9 "d" []).1 =
      FileRev.SignupRes.ok ⟨9, "admin", "1", "x", "d"⟩ ∧
    (FileRev.signup ⟨some "admin", some "1", some "x"⟩ 9 "d" []).2 =
      [⟨9, "admin", "1", "x", "d"⟩] := by decide

/-- C2 (amended): in the database revision, every `POST /api/signup` request
whose trimmed nickname is the literal `"admin"` is rejected (`ok: false`)
and adds no user; the file revision performs no such check. -/
theorem c2_amended (body : DbRev.SignupBody) (users : List DbRev.User)
    (h : Hany.jsTrim (body.nickname.getD "") = "admin") :
    (DbRev.signup body users).1.isOk = false ∧
    (DbRev.signup body users).2 = users := by
  cases hb : (body.nickname.getD "" == "" || body.password.getD "" == "") with
  | true => simp [DbRev.signup, hb, DbRev.SignupRes.isOk]
  | false => simp [DbRev.signup, hb, h, DbRev.SignupRes.isOk]

/-- C2 witness: the amended theorem at a concrete `"admin"` signup. -/
theorem c2_witness :
    (DbRev.signup ⟨some "admin", some "p", some "x"⟩ []).1.isOk = false ∧
    (DbRev.signup ⟨some "admin", some "p", some "x"⟩ []).2 = [] :=
  c2_amended ⟨some "admin", some "p", some "x"⟩ [] (by decide)

/-- C3 counterexample: the file-based revision's `POST /api/listings` does
not validate the title — with an entirely absent body on the empty store it
answers `ok: true` and stores a fresh record with title `""`. -/
theorem c3_counterexample :
    (FileRev.postListing FileRev.ListingBody.empty []).2 =
      [FileRev.newListing 1] ∧
    Hany.lookupField "ok" FileRev.renderPost = some (Hany.JField.jbool true) := by
  decide

/-- C3 (amended): in the database revision, `POST /api/listings` with an
empty or missing `title` answers `ok: false` and leaves the table (and the
sequence) untouched; the file revision accepts such requests. -/
theorem c3_amended (body : DbRev.RowBody) (now : Int) (st : DbRev.DbState)
    (h : DbRev.titleTruthy body.title = false) :
    DbRev.createListing body now st = (.fail "제목은 필수입니다.", st) := by
  simp [DbRev.createListing, h]

/-- C3 witness: the amended theorem at a concrete empty-title request. -/
theorem c3_witness :
    DbRev.createListing ⟨some "", none, none, none, none, none, none⟩ 7 ⟨[], 0⟩ =
      (.fail "제목은 필수입니다.", ⟨[], 0⟩) :=
  c3_amended ⟨some "", none, none, none, none, none, none⟩ 7 ⟨[], 0⟩ (by decide)

/-- The accumulator never decreases along the id-maximum fold of the file
revision's create handler. -/
theorem idFold_ge_init (l : List FileRev.Listing) (acc : Int) :
    acc ≤ l.foldl (fun acc cur => if cur.id > acc then cur.id else acc) acc := by
  induction l generalizing acc with
  | nil => exact le_refl acc
  | cons x xs ih =>
      refine le_trans ?_ (ih (if x.id > acc then x.id else acc))
      by_cases h : x.id > acc
      · simp [h]; omega
      · simp [h]

/-- Every member's id is bounded by the id-maximum fold. -/
theorem idFold_ge_mem (l : List FileRev.Listing) (acc : Int) (x : FileRev.Listing)
    (hx : x ∈ l) :
    x.id ≤ l.foldl (fun acc cur => if cur.id > acc then cur.id else acc) acc := by
  induction l generalizing acc with
  | nil => cases hx
  | cons y ys ih =>
      rcases List.mem_cons.mp hx with h | h
      · subst h
        refine le_trans ?_ (idFold_ge_init ys (if x.id > acc then x.id else acc))
        by_cases h : x.id > acc
        · simp [h]
        · simp [h]; omega
      · exact ih (if y.id > acc then y.id else acc) h

/-- `maxNumericId` bounds every stored id. -/
theorem maxNumericId_ge (data : List FileRev.Listing) (x : FileRev.Listing)
    (hx : x ∈ data) : x.id ≤ FileRev.maxNumericId data :=
  idFold_ge_mem data 0 x hx

/-- `maxNumericId` is clamped below by the fold's zero seed. -/
theorem maxNumericId_nonneg (data : List FileRev.Listing) :
    0 ≤ FileRev.maxNumericId data :=
  idFold_ge_init data 0

/-- The id assigned by the file revision's create path exceeds every id
already in the store. -/
theorem nextId_gt (data : List FileRev.Listing) (x : FileRev.Listing)
    (hx : x ∈ data) : x.id < FileRev.nextId data := by
  have hlen : data.length > 0 := List.length_pos.mpr (List.ne_nil_of_mem hx)
  have := maxNumericId_ge data x hx
  simp only [FileRev.nextId, if_pos hlen]
  omega

/-- On a store whose ids are all nonnegative, the source's zero-clamped
maximum agrees with the spec's plain maximum of the stored ids. -/
theorem maxNumericId_eq_specMaxId (data : List FileRev.Listing)
    (h : ∀ x ∈ data, 0 ≤ x.id) (hne : data ≠ []) :
    FileRev.maxNumericId data = FileRev.specMaxId data := by
  cases data with
  | nil => cases hne rfl
  | cons x xs =>
      have hx : 0 ≤ x.id := h x (List.mem_cons_self x xs)
      show List.foldl _ (if x.id > 0 then x.id else 0) xs = List.foldl _ x.id xs
      congr 1
      by_cases hgt : x.id > 0
      · simp [hgt]
      · simp [hgt]; omega

/-- The `applyBody` assignments of the file revision never touch the id. -/
theorem applyBody_id (body : FileRev.ListingBody) (t : FileRev.Listing) :
    (FileRev.applyBody body t).id = t.id := rfl

/-- The `applyBody` assignments of the file revision never touch the
completion flag. -/
theorem applyBody_completed (body : FileRev.ListingBody) (t : FileRev.Listing) :
    (FileRev.applyBody body t).completed = t.completed := rfl

/-- C5 counterexample: on a store holding one listing with id `-5` —
reachable through `POST /api/listings/sync`, which keeps client ids verbatim
— a create request with nonempty title is given id `1` (the source's
`reduce` seeds its maximum at `0`), not "maximum existing numeric id plus 1",
which would be `-4`. -/
theorem c5_counterexample :
    (FileRev.postListing { FileRev.ListingBody.empty with title := some "Studio" }
        [{ id := -5, title := "a", price := "", location := "", desc := "",
           tags := [], images := [], imgs := [], mapUrl := "", lat := none,
           lng := none, completed := false }]).1.id = 1 ∧
    FileRev.specMaxId
        [{ id := -5, title := "a", price := "", location := "", desc := "",
           tags := [], images := [], imgs := [], mapUrl := "", lat := none,
           lng := none, completed := false }] + 1 = -4 ∧
    (1 : Int) ≠ -4 := by decide

/-- C5 (amended): a create request with a nonempty title always succeeds; the
file revision assigns id `maxNumericId + 1` where the maximum is clamped at
`0` — equal to the spec's "max existing numeric id + 1" whenever all stored
ids are nonnegative, and `1` on the empty store — and the new id strictly
exceeds every stored id; the database revision draws `seq + 1` from the
`SERIAL` sequence, which likewise exceeds every stored id when ids never
exceed the sequence counter. -/
theorem c5_amended :
    (∀ (body : FileRev.ListingBody) (data : List FileRev.Listing) (s : String),
        body.title = some s → s ≠ "" →
        (if FileRev.idTruthy body.id then FileRev.findById data (body.id.getD 0)
         else none) = none →
        (FileRev.postListing body data).1.id = FileRev.nextId data ∧
        (data = [] → FileRev.nextId data = 1) ∧
        ((∀ x ∈ data, 0 ≤ x.id) → data ≠ [] →
            FileRev.nextId data = FileRev.specMaxId data + 1) ∧
        (∀ x ∈ data, x.id < FileRev.nextId data) ∧
        Hany.lookupField "ok" FileRev.renderPost = some (Hany.JField.jbool true)) ∧
    (∀ (body : DbRev.RowBody) (now : Int) (st : DbRev.DbState),
        DbRev.titleTruthy body.title = true →
        (DbRev.createListing body now st).1.isOk = true ∧
        (DbRev.createListing body now st).1.listingId? = some (st.seq + 1) ∧
        ((∀ r ∈ st.rows, r.id ≤ st.seq) → ∀ r ∈ st.rows, r.id < st.seq + 1)) := by
  constructor
  · intro body data s _ _ hpath
    refine ⟨?_, ?_, ?_, ?_, rfl⟩
    · simp [FileRev.postListing, hpath, FileRev.applyBody, FileRev.newListing]
    · intro h; subst h; rfl
    · intro hnn hne
      have hlen : data.length > 0 := by
        cases data with
        | nil => cases hne rfl
        | cons x xs => simp
      simp only [FileRev.nextId, if_pos hlen, maxNumericId_eq_specMaxId data hnn hne]
    · intro x hx; exact nextId_gt data x hx
  · intro body now st h
    refine ⟨?_, ?_, ?_⟩
    · simp [DbRev.createListing, h, DbRev.CreateRes.isOk]
    · simp [DbRev.createListing, h, DbRev.CreateRes.listingId?]
    · intro hseq r hr
      have := hseq r hr
      omega

/-- C5 witness: both conjuncts applied to concrete stores. -/
theorem c5_witness :
    ((FileRev.postListing { FileRev.ListingBody.empty with title := some "B" }
        [FileRev.newListing 2]).1.id = FileRev.nextId [FileRev.newListing 2] ∧
     ([FileRev.newListing 2] = ([] : List FileRev.Listing) →
        FileRev.nextId [FileRev.newListing 2] = 1) ∧
     ((∀ x ∈ [FileRev.newListing 2], 0 ≤ x.id) → [FileRev.newListing 2] ≠ [] →
        FileRev.nextId [FileRev.newListing 2] =
          FileRev.specMaxId [FileRev.newListing 2] + 1) ∧
     (∀ x ∈ [FileRev.newListing 2], x.id < FileRev.nextId [FileRev.newListing 2]) ∧
     Hany.lookupField "ok" FileRev.renderPost = some (Hany.JField.jbool true)) ∧
    ((DbRev.createListing ⟨some "B", none, none, none, none, none, none⟩ 3
        ⟨[], 0⟩).1.isOk = true ∧
     (DbRev.createListing ⟨some "B", none, none, none, none, none, none⟩ 3
        ⟨[], 0⟩).1.listingId? = some 1 ∧
     ((∀ r ∈ ([] : List DbRev.Row), r.id ≤ 0) →
        ∀ r ∈ ([] : List DbRev.Row), r.id < 0 + 1)) :=
  ⟨c5_amended.1 { FileRev.ListingBody.empty with title := some "B" }
      [FileRev.newListing 2] "B" rfl (by decide) (by decide),
   c5_amended.2 ⟨some "B", none, none, none, none, none, none⟩ 3 ⟨[], 0⟩ (by decide)⟩

/-- C10 counterexample: on a store holding one listing with id `-3`, a
`POST /api/listings` whose body carries the unmatched id `7` creates a record
with id `1` (the zero-seeded maximum plus one), not "max existing numeric id
+ 1", which would be `-2`; the requested id `7` is not stored. -/
theorem c10_counterexample :
    (FileRev.postListing
        { FileRev.ListingBody.empty with id := some 7, title := some "B" }
        [{ id := -3, title := "a", price := "", location := "", desc := "",
           tags := [], images := [], imgs := [], mapUrl := "", lat := none,
           lng := none, completed := false }]).1.id = 1 ∧
    FileRev.specMaxId
        [{ id := -3, title := "a", price := "", location := "", desc := "",
           tags := [], images := [], imgs := [], mapUrl := "", lat := none,
           lng := none, completed := false }] + 1 = -2 ∧
    (1 : Int) ≠ -2 := by decide

/-- C10 (amended): in the file revision, a `POST /api/listings` whose truthy
body id matches no stored listing appends a fresh record whose id is
`nextId data` — the zero-clamped maximum plus one, equal to the spec's
"max existing numeric id + 1" when all stored ids are nonnegative and `1` on
the empty store — and that id is computed solely from the store: the same id
is assigned as for an id-less request, so the requested id never influences
what is stored. -/
theorem c10_amended (body : FileRev.ListingBody) (data : List FileRev.Listing)
    (htruthy : FileRev.idTruthy body.id = true)
    (hmiss : FileRev.findById data (body.id.getD 0) = none) :
    (FileRev.postListing body data).1.id = FileRev.nextId data ∧
    (FileRev.postListing body data).2 = data ++ [(FileRev.postListing body data).1] ∧
    (data = [] → FileRev.nextId data = 1) ∧
    ((∀ x ∈ data, 0 ≤ x.id) → data ≠ [] →
        FileRev.nextId data = FileRev.specMaxId data + 1) ∧
    (FileRev.postListing body data).1.id =
      (FileRev.postListing { body with id := none } data).1.id := by
  have hpath : (if FileRev.idTruthy body.id then
      FileRev.findById data (body.id.getD 0) else none) = none := by
    simp [htruthy, hmiss]
  refine ⟨?_, ?_, ?_, ?_, ?_⟩
  · simp [FileRev.postListing, hpath, FileRev.applyBody, FileRev.newListing]
  · simp [FileRev.postListing, hpath]
  · intro h; subst h; rfl
  · intro hnn hne
    have hlen : data.length > 0 := by
      cases data with
      | nil => cases hne rfl
      | cons x xs => simp
    simp only [FileRev.nextId, if_pos hlen, maxNumericId_eq_specMaxId data hnn hne]
  · have h1 : (FileRev.postListing body data).1.id = FileRev.nextId data := by
      simp [FileRev.postListing, hpath, FileRev.applyBody, FileRev.newListing]
    have h2 : (FileRev.postListing { body with id := none } data).1.id =
        FileRev.nextId data := by
      simp [FileRev.postListing, FileRev.idTruthy, FileRev.applyBody,
        FileRev.newListing]
    rw [h1, h2]

/-- C10 witness: the amended theorem at a concrete unmatched-id request. -/
theorem c10_witness :
    (FileRev.postListing
        { FileRev.ListingBody.empty with id := some 7, title := some "B" } []).1.id =
      FileRev.nextId [] ∧
    (FileRev.postListing
        { FileRev.ListingBody.empty with id := some 7, title := some "B" } []).2 =
      [] ++ [(FileRev.postListing
        { FileRev.ListingBody.empty with id := some 7, title := some "B" } []).1] ∧
    (([] : List FileRev.Listing) = [] → FileRev.nextId [] = 1) ∧
    ((∀ x ∈ ([] : List FileRev.Listing), 0 ≤ x.id) →
        ([] : List FileRev.Listing) ≠ [] →
        FileRev.nextId [] = FileRev.specMaxId [] + 1) ∧
    (FileRev.postListing
        { FileRev.ListingBody.empty with id := some 7, title := some "B" } []).1.id =
      (FileRev.postListing
        { { FileRev.ListingBody.empty with id := some 7, title := some "B" }
            with id := none } []).1.id :=
  c10_amended { FileRev.ListingBody.empty with id := some 7, title := some "B" } []
    (by decide) (by decide)

/-- C6: deleting an id that matches no stored listing answers the
not-found error (`ok: false`) and leaves the store exactly as it was, in
both revisions (file revision: the filter removes nothing, lengths match
and nothing is saved; database revision: `DELETE … WHERE id = $1` reports
row count `0` and a 404 envelope is sent). -/
theorem c6_delete_missing_noop (i : Int) (data : List FileRev.Listing)
    (st : DbRev.DbState)
    (hf : ∀ x ∈ data, x.id ≠ i) (hd : ∀ r ∈ st.rows, r.id ≠ i) :
    FileRev.deleteListing i data =
      (.notFound "삭제할 매물을 찾을 수 없습니다.", data) ∧
    DbRev.deleteListing i st =
      (.notFound "삭제할 매물을 찾을 수 없습니다.", st) := by
  constructor
  · have hfe : data.filter (fun x => x.id != i) = data :=
      List.filter_eq_self.mpr (fun a ha => by simpa using hf a ha)
    simp [FileRev.deleteListing, hfe]
  · have hde : st.rows.filter (fun r => r.id != i) = st.rows :=
      List.filter_eq_self.mpr (fun a ha => by simpa using hd a ha)
    simp [DbRev.deleteListing, hde]

/-- C6 witness: deleting id 5 from stores that only hold id 1. -/
theorem c6_witness :
    FileRev.deleteListing 5 [FileRev.newListing 1] =
      (.notFound "삭제할 매물을 찾을 수 없습니다.", [FileRev.newListing 1]) ∧
    DbRev.deleteListing 5 ⟨[], 0⟩ =
      (.notFound "삭제할 매물을 찾을 수 없습니다.", ⟨[], 0⟩) :=
  c6_delete_missing_noop 5 [FileRev.newListing 1] ⟨[], 0⟩ (by decide) (by decide)

/-- C7 counterexample: the database revision's `PUT /api/listings/:id`
overwrites every updatable column unconditionally — updating a listing whose
price is `"500"` with a body that carries only a title resets the price to
`""` (and location, desc, tags likewise to their defaults). -/
theorem c7_counterexample :
    (DbRev.updateListing 1
        ⟨some "x", none, none, none, none, none, none⟩ 9
        ⟨[{ id := 1, title := "t", price := "500", location := "L", mapUrl := "",
            desc := "", tags := ["a"], images := [], contractDone := false,
            createdAt := 0, updatedAt := 0 }], 1⟩).1 =
      DbRev.UpdateRes.ok
        { id := 1, title := "x", price := "", location := "", mapUrl := "",
          desc := "", tags := [], images := [], contractDone := false,
          createdAt := 0, updatedAt := 9 }
        [{ id := 1, title := "x", price := "", location := "", mapUrl := "",
           desc := "", tags := [], images := [], contractDone := false,
           createdAt := 0, updatedAt := 9 }] ∧
    ("" : String) ≠ "500" := by decide

/-- C7 (amended): in the file revision's update path only the fields present
with the correct type are overwritten — every absent or mistyped field, and
always the id and the completed flag, keeps its previous value. In the
database revision's `PUT`, id, contract flag and creation time are preserved,
but every updatable column is overwritten even when absent from the request
(absent strings become `""`, non-arrays `[]`). -/
theorem c7_amended :
    (∀ (body : FileRev.ListingBody) (data : List FileRev.Listing)
        (t : FileRev.Listing),
        FileRev.idTruthy body.id = true →
        FileRev.findById data (body.id.getD 0) = some t →
        (FileRev.postListing body data).1 = FileRev.applyBody body t ∧
        (FileRev.applyBody body t).id = t.id ∧
        (FileRev.applyBody body t).completed = t.completed ∧
        (FileRev.applyBody body t).imgs = t.imgs ∧
        (body.title = none → (FileRev.applyBody body t).title = t.title) ∧
        (body.price = none → (FileRev.applyBody body t).price = t.price) ∧
        (body.location = none → (FileRev.applyBody body t).location = t.location) ∧
        (body.desc = none → (FileRev.applyBody body t).desc = t.desc) ∧
        (body.mapUrl = none → (FileRev.applyBody body t).mapUrl = t.mapUrl) ∧
        (body.lat = none → (FileRev.applyBody body t).lat = t.lat) ∧
        (body.lng = none → (FileRev.applyBody body t).lng = t.lng) ∧
        (body.tags = none → (FileRev.applyBody body t).tags = t.tags) ∧
        (body.images = none → (FileRev.applyBody body t).images = t.images)) ∧
    (∀ (i : Int) (body : DbRev.RowBody) (now : Int) (st : DbRev.DbState)
        (r : DbRev.Row),
        DbRev.titleTruthy body.title = true →
        st.rows.find? (fun x => x.id == i) = some r →
        (DbRev.updateListing i body now st).1 =
          DbRev.UpdateRes.ok (DbRev.putRow body now r)
            (DbRev.sortByIdDesc
              (st.rows.map (fun x => if x.id == i then DbRev.putRow body now x
                else x))) ∧
        (DbRev.putRow body now r).id = r.id ∧
        (DbRev.putRow body now r).contractDone = r.contractDone ∧
        (DbRev.putRow body now r).createdAt = r.createdAt ∧
        (body.price = none → (DbRev.putRow body now r).price = "") ∧
        (body.tags = none → (DbRev.putRow body now r).tags = [])) := by
  constructor
  · intro body data t htruthy hfind
    have hpath : (if FileRev.idTruthy body.id then
        FileRev.findById data (body.id.getD 0) else none) = some t := by
      simp [htruthy, hfind]
    refine ⟨by simp [FileRev.postListing, hpath], rfl, rfl, rfl,
      ?_, ?_, ?_, ?_, ?_, ?_, ?_, ?_, ?_⟩ <;>
      intro h <;> simp [FileRev.applyBody, h]
  · intro i body now st r htruthy hfind
    refine ⟨?_, rfl, rfl, rfl, ?_, ?_⟩
    · simp [DbRev.updateListing, htruthy, hfind]
    · intro h; simp [DbRev.putRow, h]
    · intro h; simp [DbRev.putRow, h]

/-- C7 witness: both conjuncts at concrete one-listing stores. -/
theorem c7_witness :
    ((FileRev.postListing { FileRev.ListingBody.empty with id := some 1 }
        [FileRev.newListing 1]).1 =
      FileRev.applyBody { FileRev.ListingBody.empty with id := some 1 }
        (FileRev.newListing 1) ∧
     (FileRev.applyBody { FileRev.ListingBody.empty with id := some 1 }
        (FileRev.newListing 1)).id = (FileRev.newListing 1).id ∧
     (FileRev.applyBody { FileRev.ListingBody.empty with id := some 1 }
        (FileRev.newListing 1)).completed = (FileRev.newListing 1).completed ∧
     (FileRev.applyBody { FileRev.ListingBody.empty with id := some 1 }
        (FileRev.newListing 1)).imgs = (FileRev.newListing 1).imgs ∧
     (({ FileRev.ListingBody.empty with id := some 1 } : FileRev.ListingBody).title
        = none →
      (FileRev.applyBody { FileRev.ListingBody.empty with id := some 1 }
        (FileRev.newListing 1)).title = (FileRev.newListing 1).title) ∧
     (({ FileRev.ListingBody.empty with id := some 1 } : FileRev.ListingBody).price
        = none →
      (FileRev.applyBody { FileRev.ListingBody.empty with id := some 1 }
        (FileRev.newListing 1)).price = (FileRev.newListing 1).price) ∧
     (({ FileRev.ListingBody.empty with id := some 1 } : FileRev.ListingBody).location
        = none →
      (FileRev.applyBody { FileRev.ListingBody.empty with id := some 1 }
        (FileRev.newListing 1)).location = (FileRev.newListing 1).location) ∧
     (({ FileRev.ListingBody.empty with id := some 1 } : FileRev.ListingBody).desc
        = none →
      (FileRev.applyBody { FileRev.ListingBody.empty with id := some 1 }
        (FileRev.newListing 1)).desc = (FileRev.newListing 1).desc) ∧
     (({ FileRev.ListingBody.empty with id := some 1 } : FileRev.ListingBody).mapUrl
        = none →
      (FileRev.applyBody { FileRev.ListingBody.empty with id := some 1 }
        (FileRev.newListing 1)).mapUrl = (FileRev.newListing 1).mapUrl) ∧
     (({ FileRev.ListingBody.empty with id := some 1 } : FileRev.ListingBody).lat
        = none →
      (FileRev.applyBody { FileRev.ListingBody.empty with id := some 1 }
        (FileRev.newListing 1)).lat = (FileRev.newListing 1).lat) ∧
     (({ FileRev.ListingBody.empty with id := some 1 } : FileRev.ListingBody).lng
        = none →
      (FileRev.applyBody { FileRev.ListingBody.empty with id := some 1 }
        (FileRev.newListing 1)).lng = (FileRev.newListing 1).lng) ∧
     (({ FileRev.ListingBody.empty with id := some 1 } : FileRev.ListingBody).tags
        = none →
      (FileRev.applyBody { FileRev.ListingBody.empty with id := some 1 }
        (FileRev.newListing 1)).tags = (FileRev.newListing 1).tags) ∧
     (({ FileRev.ListingBody.empty with id := some 1 } : FileRev.ListingBody).images
        = none →
      (FileRev.applyBody { FileRev.ListingBody.empty with id := some 1 }
        (FileRev.newListing 1)).images = (FileRev.newListing 1).images)) :=
  c7_amended.1 { FileRev.ListingBody.empty with id := some 1 }
    [FileRev.newListing 1] (FileRev.newListing 1) (by decide) (by decide)

/-- C8: after a successful signup for a nickname, any further signup with the
same nickname is rejected (`ok: false`) and adds no user — in the file
revision because the duplicate check matches the stored nickname (or the
validation rejects first), in the database revision because the stored id
and nickname both equal the trimmed nickname. -/
theorem c8_duplicate_nickname_rejected :
    (∀ (b1 b2 : FileRev.SignupBody) (n1 n2 : Int) (s1 s2 : String)
        (users : List FileRev.User),
        (FileRev.signup b1 n1 s1 users).1.isOk = true →
        b2.nickname = b1.nickname →
        (FileRev.signup b2 n2 s2 (FileRev.signup b1 n1 s1 users).2).1.isOk = false ∧
        (FileRev.signup b2 n2 s2 (FileRev.signup b1 n1 s1 users).2).2 =
          (FileRev.signup b1 n1 s1 users).2) ∧
    (∀ (b1 b2 : DbRev.SignupBody) (users : List DbRev.User),
        (DbRev.signup b1 users).1.isOk = true →
        b2.nickname = b1.nickname →
        (DbRev.signup b2 (DbRev.signup b1 users).2).1.isOk = false ∧
        (DbRev.signup b2 (DbRev.signup b1 users).2).2 = (DbRev.signup b1 users).2) := by
  constructor
  · intro b1 b2 n1 n2 s1 s2 users hok hnick
    cases h1 : (Hany.jsTrim (b1.nickname.getD "") == "" ||
        Hany.jsTrim (b1.phone.getD "") == "" ||
        Hany.jsTrim (b1.password.getD "") == "") with
    | true =>
        exfalso
        simp [FileRev.signup, h1, FileRev.SignupRes.isOk] at hok
    | false =>
        cases hfind : users.find? (fun u =>
            u.nickname == Hany.jsTrim (b1.nickname.getD "") ||
            u.phone == Hany.jsTrim (b1.phone.getD "")) with
        | some u =>
            exfalso
            simp [FileRev.signup, h1, hfind, FileRev.SignupRes.isOk] at hok
        | none =>
            have hstore : (FileRev.signup b1 n1 s1 users).2 =
                users ++ [⟨n1, Hany.jsTrim (b1.nickname.getD ""),
                  Hany.jsTrim (b1.phone.getD ""),
                  Hany.jsTrim (b1.password.getD ""), s1⟩] := by
              simp [FileRev.signup, h1, hfind]
            rw [hstore]
            cases h2 : (Hany.jsTrim (b2.nickname.getD "") == "" ||
                Hany.jsTrim (b2.phone.getD "") == "" ||
                Hany.jsTrim (b2.password.getD "") == "") with
            | true =>
                constructor <;> simp [FileRev.signup, h2, FileRev.SignupRes.isOk]
            | false =>
                cases hfind2 : (users ++ [(⟨n1, Hany.jsTrim (b1.nickname.getD ""),
                    Hany.jsTrim (b1.phone.getD ""),
                    Hany.jsTrim (b1.password.getD ""), s1⟩ : FileRev.User)]).find?
                    (fun u => u.nickname == Hany.jsTrim (b2.nickname.getD "") ||
                      u.phone == Hany.jsTrim (b2.phone.getD "")) with
                | none =>
                    exfalso
                    have hmem := List.find?_eq_none.mp hfind2
                      ⟨n1, Hany.jsTrim (b1.nickname.getD ""),
                        Hany.jsTrim (b1.phone.getD ""),
                        Hany.jsTrim (b1.password.getD ""), s1⟩ (by simp)
                    apply hmem
                    simp [hnick]
                | some u =>
                    constructor <;>
                      simp [FileRev.signup, h2, hfind2, FileRev.SignupRes.isOk]
  · intro b1 b2 users hok hnick
    cases h1 : (b1.nickname.getD "" == "" || b1.password.getD "" == "") with
    | true =>
        exfalso
        simp [DbRev.signup, h1, DbRev.SignupRes.isOk] at hok
    | false =>
        cases h2 : (Hany.jsTrim (b1.nickname.getD "") == "") with
        | true =>
            exfalso
            simp [DbRev.signup, h1, h2, DbRev.SignupRes.isOk] at hok
        | false =>
            cases h3 : (Hany.jsTrim (b1.nickname.getD "") == "admin") with
            | true =>
                exfalso
                simp [DbRev.signup, h1, h2, h3, DbRev.SignupRes.isOk] at hok
            | false =>
                cases h4 : users.any (fun u =>
                    u.id == Hany.jsTrim (b1.nickname.getD "") ||
                    u.nickname == Hany.jsTrim (b1.nickname.getD "")) with
                | true =>
                    exfalso
                    simp [DbRev.signup, h1, h2, h3, h4, DbRev.SignupRes.isOk] at hok
                | false =>
                    have hstore : (DbRev.signup b1 users).2 =
                        users ++ [⟨Hany.jsTrim (b1.nickname.getD ""),
                          Hany.jsTrim (b1.nickname.getD ""),
                          Hany.jsTrim (b1.phone.getD ""),
                          b1.password.getD "", "user"⟩] := by
                      simp [DbRev.signup, h1, h2, h3, h4]
                    rw [hstore]
                    cases h5 : (b2.nickname.getD "" == "" || b2.password.getD "" == "") with
                    | true =>
                        constructor <;> simp [DbRev.signup, h5, DbRev.SignupRes.isOk]
                    | false =>
                        have hany : (users ++ [(⟨Hany.jsTrim (b1.nickname.getD ""),
                            Hany.jsTrim (b1.nickname.getD ""),
                            Hany.jsTrim (b1.phone.getD ""),
                            b1.password.getD "", "user"⟩ : DbRev.User)]).any
                            (fun u => u.id == Hany.jsTrim (b2.nickname.getD "") ||
                              u.nickname == Hany.jsTrim (b2.nickname.getD "")) = true := by
                          simp [hnick]
                        simp only [hnick] at h5
                        constructor <;>
                          simp [DbRev.signup, h5, hnick, h2, h3, hany,
                            DbRev.SignupRes.isOk]

/-- C8 witness: signing up `"alice"` twice on the empty stores of both
revisions. -/
theorem c8_witness :
    ((FileRev.signup ⟨some "alice", some "2", some "q"⟩ 2 "u"
        (FileRev.signup ⟨some "alice", some "1", some "p"⟩ 1 "t" []).2).1.isOk
        = false ∧
     (FileRev.signup ⟨some "alice", some "2", some "q"⟩ 2 "u"
        (FileRev.signup ⟨some "alice", some "1", some "p"⟩ 1 "t" []).2).2 =
       (FileRev.signup ⟨some "alice", some "1", some "p"⟩ 1 "t" []).2) ∧
    ((DbRev.signup ⟨some "alice", some "2", some "q"⟩
        (DbRev.signup ⟨some "alice", some "1", some "p"⟩ []).2).1.isOk = false ∧
     (DbRev.signup ⟨some "alice", some "2", some "q"⟩
        (DbRev.signup ⟨some "alice", some "1", some "p"⟩ []).2).2 =
       (DbRev.signup ⟨some "alice", some "1", some "p"⟩ []).2) :=
  ⟨c8_duplicate_nickname_rejected.1 ⟨some "alice", some "1", some "p"⟩
      ⟨some "alice", some "2", some "q"⟩ 1 2 "t" "u" [] (by decide) rfl,
   c8_duplicate_nickname_rejected.2 ⟨some "alice", some "1", some "p"⟩
      ⟨some "alice", some "2", some "q"⟩ [] (by decide) rfl⟩

/-- C9 counterexample: the missing-parameter response of
`GET /api/resolve-map` is `res.status(400).json({ error: … })` — it carries
no `ok` field at all, so the claimed envelope contract fails on it. -/
theorem c9_counterexample :
    Hany.hasOkBool (DbRev.renderResolve DbRev.ResolveOutcome.missingParam)
      = false ∧
    Hany.envelopeOk (DbRev.renderResolve DbRev.ResolveOutcome.missingParam)
      = false := by decide

/-- C9 (amended): every modelled endpoint response of both revisions except
`GET /api/resolve-map` satisfies the envelope contract — an `ok` boolean is
always present and an `error` string accompanies every `ok: false` — and so
do the literal catch-branch 500 bodies; `GET /api/resolve-map` is the sole
exception: none of its four response shapes contains an `ok` field, and each
carries either an `error` string or a `fullUrl` string. -/
theorem c9_amended :
    Hany.envelopeOk FileRev.renderListings = true ∧
    (∀ r : FileRev.GetOneRes, Hany.envelopeOk (FileRev.renderGetOne r) = true) ∧
    Hany.envelopeOk FileRev.renderPost = true ∧
    (∀ r : FileRev.DeleteRes, Hany.envelopeOk (FileRev.renderDelete r) = true) ∧
    (∀ r : FileRev.CompleteRes, Hany.envelopeOk (FileRev.renderComplete r) = true) ∧
    (∀ n : Nat, Hany.envelopeOk (FileRev.renderSync n) = true) ∧
    (∀ r : FileRev.SignupRes, Hany.envelopeOk (FileRev.renderSignup r) = true) ∧
    (∀ r : FileRev.LoginRes, Hany.envelopeOk (FileRev.renderLogin r) = true) ∧
    Hany.envelopeOk FileRev.renderUsers = true ∧
    (∀ r : DbRev.SignupRes, Hany.envelopeOk (DbRev.renderSignup r) = true) ∧
    (∀ r : DbRev.LoginRes, Hany.envelopeOk (DbRev.renderLogin r) = true) ∧
    Hany.envelopeOk DbRev.renderUsers = true ∧
    Hany.envelopeOk DbRev.renderContact = true ∧
    Hany.envelopeOk DbRev.renderListings = true ∧
    (∀ r : DbRev.GetOneRes, Hany.envelopeOk (DbRev.renderGetOne r) = true) ∧
    (∀ r : DbRev.CreateRes, Hany.envelopeOk (DbRev.renderCreate r) = true) ∧
    (∀ r : DbRev.UpdateRes, Hany.envelopeOk (DbRev.renderUpdate r) = true) ∧
    (∀ r : DbRev.DeleteRes, Hany.envelopeOk (DbRev.renderDelete r) = true) ∧
    (∀ r : DbRev.ContractRes, Hany.envelopeOk (DbRev.renderContract r) = true) ∧
    (∀ msg : String, Hany.envelopeOk (Hany.serverErrorBody msg) = true) ∧
    (∀ o : DbRev.ResolveOutcome,
        Hany.hasOkBool (DbRev.renderResolve o) = false ∧
        (Hany.hasErrorStr (DbRev.renderResolve o) = true ∨
         Hany.hasKey "fullUrl" (DbRev.renderResolve o) = true)) := by
  refine ⟨rfl, ?_, rfl, ?_, ?_, ?_, ?_, ?_, rfl, ?_, ?_, rfl, rfl, rfl, ?_, ?_,
    ?_, ?_, ?_, ?_, ?_⟩ <;> intro r <;> cases r <;> simp [Hany.envelopeOk,
    Hany.hasOkBool, Hany.isOkFalse, Hany.hasErrorStr, Hany.hasKey,
    Hany.lookupField, FileRev.renderGetOne, FileRev.renderDelete,
    FileRev.renderComplete, FileRev.renderSync, FileRev.renderSignup,
    FileRev.renderLogin, DbRev.renderSignup, DbRev.renderLogin,
    DbRev.renderGetOne, DbRev.renderCreate, DbRev.renderUpdate,
    DbRev.renderDelete, DbRev.renderContract, Hany.serverErrorBody,
    DbRev.renderResolve, Hany.JField.isBool, Hany.JField.isStr]

/-- Appending a fresh element keeps a list duplicate-free. -/
theorem nodup_append_singleton {α : Type} {l : List α} {a : α}
    (h : l.Nodup) (ha : a ∉ l) : (l ++ [a]).Nodup :=
  List.nodup_append.mpr ⟨h, List.nodup_singleton a, List.disjoint_singleton.mpr ha⟩

/-- In-place replacement by a record with the same id leaves the id list of a
file-revision store untouched. -/
theorem updateFirst_ids (data : List FileRev.Listing) (i : Int)
    (t2 : FileRev.Listing) (ht : t2.id = i) :
    FileRev.idsOf (FileRev.updateFirst data i t2) = FileRev.idsOf data := by
  induction data with
  | nil => rfl
  | cons x xs ih =>
      by_cases h : (x.id == i) = true
      · have hx : x.id = i := by simpa using h
        simp [FileRev.updateFirst, h, FileRev.idsOf, ht, hx]
      · simp only [FileRev.updateFirst, h, if_false, Bool.false_eq_true]
        simp only [FileRev.idsOf, List.map_cons] at *
        rw [ih]

/-- The create path's fresh id is not among the stored ids. -/
theorem nextId_not_mem (data : List FileRev.Listing) :
    FileRev.nextId data ∉ FileRev.idsOf data := by
  intro hmem
  rcases List.mem_map.mp hmem with ⟨x, hx, hid⟩
  have := nextId_gt data x hx
  omega

/-- An id-preserving conditional row update leaves the id list of the
database-revision table untouched. -/
theorem map_update_ids (rows : List DbRev.Row) (i : Int) (g : DbRev.Row → DbRev.Row)
    (hg : ∀ x, (g x).id = x.id) :
    DbRev.idsOf (rows.map (fun x => if x.id == i then g x else x)) =
      DbRev.idsOf rows := by
  induction rows with
  | nil => rfl
  | cons x xs ih =>
      simp only [List.map_cons, DbRev.idsOf] at *
      rw [ih]
      by_cases h : (x.id == i) = true
      · simp [h, hg]
      · simp [h]

/-- C4 counterexample: `POST /api/listings/sync` stores client-supplied ids
verbatim — a sync request repeating id `1` leaves the store with duplicate
ids, so bulk-replace does not preserve id uniqueness. -/
theorem c4_counterexample :
    FileRev.idsOf
        (FileRev.syncListings
          [some ⟨1, some "x", none, none, none, none, none, none, none, none,
              none, false⟩,
           some ⟨1, some "y", none, none, none, none, none, none, none, none,
              none, false⟩]).1 = [1, 1] ∧
    ¬ (FileRev.idsOf
        (FileRev.syncListings
          [some ⟨1, some "x", none, none, none, none, none, none, none, none,
              none, false⟩,
           some ⟨1, some "y", none, none, none, none, none, none, none, none,
              none, false⟩]).1).Nodup := by decide

/-- C4 (amended): create, update-in-place, delete and toggle-completion
preserve pairwise-distinct listing ids and never change the id of an existing
listing, in both revisions (the database revision's create under the
invariant that no stored id exceeds the sequence counter, which it also
preserves); bulk-replace (`POST /api/listings/sync`), by contrast, overwrites
the store with exactly the client-supplied ids, so after it the ids are
distinct only if the client list's ids were. -/
theorem c4_amended :
    (∀ (body : FileRev.ListingBody) (data : List FileRev.Listing),
        (FileRev.idsOf (FileRev.postListing body data).2 = FileRev.idsOf data ∨
         FileRev.idsOf (FileRev.postListing body data).2 =
           FileRev.idsOf data ++ [FileRev.nextId data]) ∧
        ((FileRev.idsOf data).Nodup →
          (FileRev.idsOf (FileRev.postListing body data).2).Nodup)) ∧
    (∀ (i : Int) (data : List FileRev.Listing),
        List.Sublist (FileRev.idsOf (FileRev.deleteListing i data).2)
          (FileRev.idsOf data) ∧
        ((FileRev.idsOf data).Nodup →
          (FileRev.idsOf (FileRev.deleteListing i data).2).Nodup)) ∧
    (∀ (i : Int) (c : Bool) (data : List FileRev.Listing),
        FileRev.idsOf (FileRev.toggleComplete i c data).2 = FileRev.idsOf data) ∧
    (∀ incoming : List (Option FileRev.SyncItem),
        FileRev.idsOf (FileRev.syncListings incoming).1 =
          (incoming.filterMap (fun x => x)).map (fun it => it.id)) ∧
    (∀ (body : DbRev.RowBody) (now : Int) (st : DbRev.DbState),
        (∀ r ∈ st.rows, r.id ≤ st.seq) →
        ((DbRev.idsOf st.rows).Nodup →
          (DbRev.idsOf (DbRev.createListing body now st).2.rows).Nodup) ∧
        (∀ r ∈ (DbRev.createListing body now st).2.rows,
          r.id ≤ (DbRev.createListing body now st).2.seq)) ∧
    (∀ (i : Int) (body : DbRev.RowBody) (now : Int) (st : DbRev.DbState),
        DbRev.idsOf (DbRev.updateListing i body now st).2.rows =
          DbRev.idsOf st.rows) ∧
    (∀ (i : Int) (st : DbRev.DbState),
        List.Sublist (DbRev.idsOf (DbRev.deleteListing i st).2.rows)
          (DbRev.idsOf st.rows) ∧
        ((DbRev.idsOf st.rows).Nodup →
          (DbRev.idsOf (DbRev.deleteListing i st).2.rows).Nodup)) ∧
    (∀ (i : Int) (d : Bool) (now : Int) (st : DbRev.DbState),
        DbRev.idsOf (DbRev.contractListing i d now st).2.rows =
          DbRev.idsOf st.rows) := by
  refine ⟨?_, ?_, ?_, ?_, ?_, ?_, ?_, ?_⟩
  · intro body data
    cases hpath : (if FileRev.idTruthy body.id then
        FileRev.findById data (body.id.getD 0) else none) with
    | some t =>
        have hids : FileRev.idsOf (FileRev.postListing body data).2 =
            FileRev.idsOf data := by
          simp only [FileRev.postListing, hpath]
          exact updateFirst_ids data t.id (FileRev.applyBody body t) (applyBody_id body t)
        exact ⟨Or.inl hids, fun h => hids ▸ h⟩
    | none =>
        have hids : FileRev.idsOf (FileRev.postListing body data).2 =
            FileRev.idsOf data ++ [FileRev.nextId data] := by
          simp [FileRev.postListing, hpath, FileRev.idsOf, FileRev.applyBody,
            FileRev.newListing]
        refine ⟨Or.inr hids, fun h => ?_⟩
        rw [hids]
        exact nodup_append_singleton h (nextId_not_mem data)
  · intro i data
    by_cases h : data.length = (List.filter (fun x => x.id != i) data).length
    · have hst : (FileRev.deleteListing i data).2 = data := by
        simp [FileRev.deleteListing, h]
      rw [hst]
      exact ⟨List.Sublist.refl _, fun hh => hh⟩
    · have hst : (FileRev.deleteListing i data).2 =
          List.filter (fun x => x.id != i) data := by
        simp [FileRev.deleteListing, h]
      have hsub : (FileRev.idsOf (List.filter (fun x => x.id != i) data)).Sublist
          (FileRev.idsOf data) := by
        simp only [FileRev.idsOf]
        exact (List.filter_sublist data).map (fun l => l.id)
      rw [hst]
      exact ⟨hsub, fun hh => hh.sublist hsub⟩
  · intro i c data
    unfold FileRev.toggleComplete
    cases hfind : FileRev.findById data i with
    | none => rfl
    | some t =>
        have ht : t.id = i := by
          have := List.find?_some hfind
          simpa using this
        simpa using updateFirst_ids data i { t with completed := c } ht
  · intro incoming
    simp only [FileRev.syncListings, FileRev.idsOf, List.map_map]
    rfl
  · intro body now st hseq
    cases h : DbRev.titleTruthy body.title with
    | false =>
        have hst : (DbRev.createListing body now st).2 = st := by
          simp [DbRev.createListing, h]
        rw [hst]
        exact ⟨fun hh => hh, hseq⟩
    | true =>
        have hids : DbRev.idsOf (DbRev.createListing body now st).2.rows =
            DbRev.idsOf st.rows ++ [st.seq + 1] := by
          simp [DbRev.createListing, h, DbRev.idsOf]
        have hseq2 : (DbRev.createListing body now st).2.seq = st.seq + 1 := by
          simp [DbRev.createListing, h]
        constructor
        · intro hh
          rw [hids]
          apply nodup_append_singleton hh
          intro hmem
          rcases List.mem_map.mp hmem with ⟨x, hx, hid⟩
          have := hseq x hx
          omega
        · intro r hr
          rw [hseq2]
          have hrid : r.id ∈ DbRev.idsOf (DbRev.createListing body now st).2.rows :=
            List.mem_map_of_mem (fun x => x.id) hr
          rw [hids] at hrid
          rcases List.mem_append.mp hrid with hm | hm
          · rcases List.mem_map.mp hm with ⟨x, hx, hid⟩
            have := hseq x hx
            omega
          · have := List.mem_singleton.mp hm
            omega
  · intro i body now st
    unfold DbRev.updateListing
    split
    · rfl
    · cases hfind : st.rows.find? (fun r => r.id == i) with
      | none => simp [hfind]
      | some r =>
          simp only [hfind]
          exact map_update_ids st.rows i (DbRev.putRow body now) (fun x => rfl)
  · intro i st
    by_cases h : st.rows.length = (List.filter (fun r => r.id != i) st.rows).length
    · have hst : (DbRev.deleteListing i st).2 = st := by
        simp [DbRev.deleteListing, h]
      rw [hst]
      exact ⟨List.Sublist.refl _, fun hh => hh⟩
    · have hst : (DbRev.deleteListing i st).2.rows =
          List.filter (fun r => r.id != i) st.rows := by
        simp [DbRev.deleteListing, h]
      have hsub : (DbRev.idsOf (List.filter (fun r => r.id != i) st.rows)).Sublist
          (DbRev.idsOf st.rows) := by
        simp only [DbRev.idsOf]
        exact (List.filter_sublist st.rows).map (fun r => r.id)
      rw [hst]
      exact ⟨hsub, fun hh => hh.sublist hsub⟩
  · intro i d now st
    unfold DbRev.contractListing
    cases hfind : st.rows.find? (fun r => r.id == i) with
    | none => rfl
    | some r =>
        simp only [hfind]
        exact map_update_ids st.rows i
          (fun x => { x with contractDone := d, updatedAt := now }) (fun x => rfl)

/-- C4 witness: the amended theorem at a concrete one-listing store (file
revision create) and a concrete empty table (database revision create). -/
theorem c4_witness :
    (FileRev.idsOf (FileRev.postListing FileRev.ListingBody.empty
        [FileRev.newListing 1]).2).Nodup ∧
    (DbRev.idsOf (DbRev.createListing
        ⟨some "t", none, none, none, none, none, none⟩ 0 ⟨[], 0⟩).2.rows).Nodup ∧
    (∀ r ∈ (DbRev.createListing
        ⟨some "t", none, none, none, none, none, none⟩ 0 ⟨[], 0⟩).2.rows,
      r.id ≤ (DbRev.createListing
        ⟨some "t", none, none, none, none, none, none⟩ 0 ⟨[], 0⟩).2.seq) :=
  ⟨(c4_amended.1 FileRev.ListingBody.empty [FileRev.newListing 1]).2 (by decide),
   (c4_amended.2.2.2.2.1 ⟨some "t", none, none, none, none, none, none⟩ 0
      ⟨[], 0⟩ (by decide)).1 (by decide),
   (c4_amended.2.2.2.2.1 ⟨some "t", none, none, none, none, none, none⟩ 0
      ⟨[], 0⟩ (by decide)).2⟩
